import Mathlib

/-!
Shallow embedding of the collaborative design-state engine of the
design-collab frontend (Redux Toolkit slices).

Embedded source files:
* the design slice of the architecture document (`elementsById` +
  `layerOrder` model, reducers `addElement` / `updateElement` /
  `deleteElement` / `reorderLayers`) — namespace `Ref`;
* the shipped design slice (`items : Design[]` model, reducer
  `updateElement` that upserts a full element) — namespace `Src`;
* the shipped history slice (`past` / `future` stacks,
  `pushSnapshot` / `undo` / `redo`) — namespace `History`;
* the shipped presence slice (`collaborators` record, `isConnected`,
  `upsertCollaborator` / `removeCollaborator` / `setConnectionState`)
  — namespace `Presence`;
* the realtime hook dispatch of inbound events — `RemoteEvent` /
  `Store.dispatch`.

Modelling conventions: JavaScript numbers are modelled as `Int` (every
value a claim touches is integral); a TypeScript
`Record<string, T>` is modelled as an insertion-ordered association
list with the JS-object operations `recordGet` / `recordSet` /
`recordDelete`; timestamps produced by `new Date().toISOString()` are
passed in as an explicit `String` parameter.
-/

namespace DesignCollab

/-- The closed set of element type tags. -/
inductive ElementType
  | text
  | image
  | rect
  | circle
deriving DecidableEq

inductive FontWeight
  | normal
  | bold
deriving DecidableEq

inductive Align
  | left
  | center
  | right
deriving DecidableEq

inductive Fit
  | contain
  | cover
deriving DecidableEq

/-- Variant-specific fields of the `DesignElement` tagged union; the
constructor is the `type` tag. -/
inductive ElementVariant
  | text (text fontFamily : String) (fontSize : Int) (fontWeight : FontWeight)
      (fill : String) (align : Align)
  | image (src : String) (fit : Fit)
  | rect (fill stroke : String) (strokeWidth radius : Int)
  | circle (fill stroke : String) (strokeWidth radius : Int)
deriving DecidableEq

/-- A design element: common `BaseElement` fields plus the variant payload. -/
structure DesignElement where
  id : String
  x : Int
  y : Int
  width : Int
  height : Int
  rotation : Int
  zIndex : Int
  opacity : Int
  locked : Option Bool
  variant : ElementVariant
deriving DecidableEq

/-- `Partial<DesignElement>`: each common field optionally present; a
patch touching variant-specific fields supplies a whole variant payload. -/
structure ElementPatch where
  id : Option String := none
  x : Option Int := none
  y : Option Int := none
  width : Option Int := none
  height : Option Int := none
  rotation : Option Int := none
  zIndex : Option Int := none
  opacity : Option Int := none
  locked : Option Bool := none
  variant : Option ElementVariant := none
deriving DecidableEq

/-- The JS spread `{ ...existing, ...patch }`. -/
def applyPatch (p : ElementPatch) (e : DesignElement) : DesignElement :=
  { id := p.id.getD e.id
    x := p.x.getD e.x
    y := p.y.getD e.y
    width := p.width.getD e.width
    height := p.height.getD e.height
    rotation := p.rotation.getD e.rotation
    zIndex := p.zIndex.getD e.zIndex
    opacity := p.opacity.getD e.opacity
    locked := match p.locked with
      | some b => some b
      | none => e.locked
    variant := p.variant.getD e.variant }

/-- JS object read `m[k]`. -/
def recordGet (m : List (String × α)) (k : String) : Option α :=
  (m.find? (fun p => p.1 = k)).map (fun p => p.2)

/-- JS object write `m[k] = v`: replaces in place when the key exists,
otherwise appends (insertion order preserved). -/
def recordSet (m : List (String × α)) (k : String) (v : α) : List (String × α) :=
  if m.any (fun p => p.1 = k) then
    m.map (fun p => if p.1 = k then (k, v) else p)
  else
    m ++ [(k, v)]

/-- JS `delete m[k]`. -/
def recordDelete (m : List (String × α)) (k : String) : List (String × α) :=
  m.filter (fun p => p.1 ≠ k)

/-- Keys of a record, in insertion order. -/
def recordKeys (m : List (String × α)) : List String :=
  m.map (fun p => p.1)

namespace Ref

/-- State of the architecture document's design slice. -/
structure DesignState where
  designId : Option String
  name : String
  width : Int
  height : Int
  elementsById : List (String × DesignElement)
  layerOrder : List String
  selectedElementId : Option String
  dirty : Bool
deriving DecidableEq

def initialState : DesignState :=
  { designId := none
    name := ""
    width := 1080
    height := 1080
    elementsById := []
    layerOrder := []
    selectedElementId := none
    dirty := false }

def addElement (el : DesignElement) (s : DesignState) : DesignState :=
  { s with
    elementsById := recordSet s.elementsById el.id el
    layerOrder := s.layerOrder ++ [el.id]
    dirty := true }

def updateElement (id : String) (patch : ElementPatch) (s : DesignState) : DesignState :=
  match recordGet s.elementsById id with
  | none => s
  | some existing =>
      { s with
        elementsById := recordSet s.elementsById id (applyPatch patch existing)
        dirty := true }

def deleteElement (id : String) (s : DesignState) : DesignState :=
  { s with
    elementsById := recordDelete s.elementsById id
    layerOrder := s.layerOrder.filter (fun eid => eid ≠ id)
    selectedElementId := if s.selectedElementId = some id then none else s.selectedElementId
    dirty := true }

def reorderLayers (newOrder : List String) (s : DesignState) : DesignState :=
  { s with
    layerOrder := newOrder
    dirty := true }

/-- One element-store mutation, as dispatched to the design slice. -/
inductive Mutation
  | create (el : DesignElement)
  | update (id : String) (patch : ElementPatch)
  | delete (id : String)
  | reorder (newOrder : List String)

def applyMutation : Mutation → DesignState → DesignState
  | .create el, s => addElement el s
  | .update id patch, s => updateElement id patch s
  | .delete id, s => deleteElement id s
  | .reorder newOrder, s => reorderLayers newOrder s

/-- The element↔order invariant: layer order is duplicate-free, keys of
the element map are duplicate-free, and each id occurs in the layer
order exactly when it is a key of the element map. -/
def elementOrderInv (s : DesignState) : Prop :=
  s.layerOrder.Nodup ∧ (recordKeys s.elementsById).Nodup ∧
  (∀ id ∈ s.layerOrder, id ∈ recordKeys s.elementsById) ∧
  (∀ id ∈ recordKeys s.elementsById, id ∈ s.layerOrder)

instance (s : DesignState) : Decidable (elementOrderInv s) := by
  unfold elementOrderInv
  infer_instance

end Ref

namespace Src

/-- A whole design document as held by the shipped design slice. -/
structure Design where
  _id : String
  name : String
  width : Int
  height : Int
  elements : List DesignElement
  createdAt : String
  updatedAt : String
  thumbnailUrl : Option String
deriving DecidableEq

/-- State of the shipped design slice. -/
structure DesignState where
  items : List Design
  activeDesignId : Option String
deriving DecidableEq

/-- `design.elements` after `updateElement`: replace the element at the
first index whose id matches (`findIndex` + assignment), otherwise push. -/
def upsertElement (element : DesignElement) : List DesignElement → List DesignElement
  | [] => [element]
  | el :: els =>
      if el.id = element.id then element :: els
      else el :: upsertElement element els

/-- `state.items` after `updateElement`: the first design whose `_id`
matches (`find`) has its elements upserted and `updatedAt` stamped;
an unmatched id leaves the list untouched. -/
def updateItems (designId : String) (element : DesignElement) (now : String) :
    List Design → List Design
  | [] => []
  | d :: ds =>
      if d._id = designId then
        { d with elements := upsertElement element d.elements, updatedAt := now } :: ds
      else
        d :: updateItems designId element now ds

/-- The shipped `updateElement` reducer (`now` stands for
`new Date().toISOString()`). -/
def updateElement (designId : String) (element : DesignElement) (now : String)
    (s : DesignState) : DesignState :=
  if s.items.any (fun d => d._id = designId) then
    { s with items := updateItems designId element now s.items }
  else
    s

end Src

namespace History

/-- One undoable snapshot. -/
structure HistoryEntry where
  designId : String
  snapshot : List DesignElement
  timestamp : String
deriving DecidableEq

structure HistoryState where
  past : List HistoryEntry
  future : List HistoryEntry
deriving DecidableEq

def initialState : HistoryState :=
  { past := [], future := [] }

/-- `past.push(entry); future = []`: the top of `past` is the list end. -/
def pushSnapshot (entry : HistoryEntry) (s : HistoryState) : HistoryState :=
  { past := s.past ++ [entry], future := [] }

/-- `past.pop()` then `future.unshift(entry)` when an entry was popped. -/
def undo (s : HistoryState) : HistoryState :=
  match s.past.getLast? with
  | none => s
  | some entry => { past := s.past.dropLast, future := entry :: s.future }

/-- `future.shift()` then `past.push(entry)` when an entry was shifted. -/
def redo (s : HistoryState) : HistoryState :=
  match s.future with
  | [] => s
  | entry :: rest => { past := s.past ++ [entry], future := rest }

/-- `n` consecutive `pushSnapshot` calls of the same entry. -/
def pushN (entry : HistoryEntry) : Nat → HistoryState → HistoryState
  | 0, s => s
  | n + 1, s => pushN entry n (pushSnapshot entry s)

/-- `n` consecutive `undo` calls. -/
def undoN : Nat → HistoryState → HistoryState
  | 0, s => s
  | n + 1, s => undoN n (undo s)

end History

namespace Presence

structure CollaboratorPresence where
  id : String
  name : String
  color : String
  cursor : Option (Int × Int)
  lastActiveAt : String
deriving DecidableEq

structure PresenceState where
  collaborators : List (String × CollaboratorPresence)
  isConnected : Bool
deriving DecidableEq

def initialState : PresenceState :=
  { collaborators := [], isConnected := false }

def setConnectionState (b : Bool) (s : PresenceState) : PresenceState :=
  { s with isConnected := b }

def upsertCollaborator (p : CollaboratorPresence) (s : PresenceState) : PresenceState :=
  { s with collaborators := recordSet s.collaborators p.id p }

/-- `delete state.collaborators[action.payload]`. -/
def removeCollaborator (id : String) (s : PresenceState) : PresenceState :=
  { s with collaborators := recordDelete s.collaborators id }

end Presence

/-- The combined store: design, history and presence slices side by side. -/
structure Store where
  design : Ref.DesignState
  history : History.HistoryState
  presence : Presence.PresenceState
deriving DecidableEq

def Store.initial : Store :=
  { design := Ref.initialState
    history := History.initialState
    presence := Presence.initialState }

/-- The union of the slice action creators. Each `createSlice` reducer
reacts only to its own actions, so dispatch routes an action to exactly
one slice and leaves the others untouched (combineReducers semantics). -/
inductive Action
  | addElement (el : DesignElement)
  | updateElement (id : String) (patch : ElementPatch)
  | deleteElement (id : String)
  | reorderLayers (newOrder : List String)
  | pushSnapshot (entry : History.HistoryEntry)
  | undo
  | redo
  | setConnectionState (b : Bool)
  | upsertCollaborator (p : Presence.CollaboratorPresence)
  | removeCollaborator (id : String)

def Store.dispatch (a : Action) (s : Store) : Store :=
  match a with
  | .addElement el => { s with design := Ref.addElement el s.design }
  | .updateElement id patch => { s with design := Ref.updateElement id patch s.design }
  | .deleteElement id => { s with design := Ref.deleteElement id s.design }
  | .reorderLayers newOrder => { s with design := Ref.reorderLayers newOrder s.design }
  | .pushSnapshot entry => { s with history := History.pushSnapshot entry s.history }
  | .undo => { s with history := History.undo s.history }
  | .redo => { s with history := History.redo s.history }
  | .setConnectionState b => { s with presence := Presence.setConnectionState b s.presence }
  | .upsertCollaborator p => { s with presence := Presence.upsertCollaborator p s.presence }
  | .removeCollaborator id => { s with presence := Presence.removeCollaborator id s.presence }

/-- The inbound element events the realtime hook subscribes to, each
dispatched straight to the design slice (no snapshot action is emitted). -/
inductive RemoteEvent
  | elementCreate (el : DesignElement)
  | elementUpdate (id : String) (patch : ElementPatch)
  | elementDelete (id : String)
  | layerReorder (newOrder : List String)

/-- The action a remote event's socket handler dispatches. -/
def RemoteEvent.toAction : RemoteEvent → Action
  | .elementCreate el => .addElement el
  | .elementUpdate id patch => .updateElement id patch
  | .elementDelete id => .deleteElement id
  | .layerReorder newOrder => .reorderLayers newOrder

/-- Applying an inbound remote event to the store. -/
def applyRemote (e : RemoteEvent) (s : Store) : Store :=
  Store.dispatch e.toAction s

namespace Ref

/-- Side conditions under which a mutation is benign: a created id is not
already a key of the element map, and a reorder supplies a permutation of
the current layer order. Updates and deletes need no condition. -/
def mutationOk (s : DesignState) : Mutation → Prop
  | .create el => recordGet s.elementsById el.id = none
  | .update _ _ => True
  | .delete _ => True
  | .reorder newOrder => newOrder.Perm s.layerOrder

instance : (s : DesignState) → (m : Mutation) → Decidable (mutationOk s m)
  | _, .create _ => inferInstanceAs (Decidable (_ = _))
  | _, .update _ _ => inferInstanceAs (Decidable True)
  | _, .delete _ => inferInstanceAs (Decidable True)
  | s, .reorder newOrder => List.decidablePerm newOrder s.layerOrder

end Ref

/-! ### Concrete fixtures used by the scenario claims -/

/-- The rect element `"a"` at `x = 0, y = 0`. -/
def elA0 : DesignElement :=
  { id := "a", x := 0, y := 0, width := 100, height := 100, rotation := 0,
    zIndex := 0, opacity := 1, locked := none,
    variant := .rect "#2563eb" "#60a5fa" 2 0 }

/-- The rect element `"a"` after moving to `x = 50`. -/
def elA50 : DesignElement := { elA0 with x := 50 }

/-- The rect element `"b"` at `x = 0`. -/
def elB0 : DesignElement := { elA0 with id := "b" }

/-- The element `"b"` payload carrying `x = 10`. -/
def elB10 : DesignElement := { elB0 with x := 10 }

/-- The patch `{ x: 50 }`. -/
def patchX50 : ElementPatch := { x := some 50 }

/-- The patch `{ x: 10 }`. -/
def patchX10 : ElementPatch := { x := some 10 }

/-- Reference design state after creating element `"a"`. -/
def sA : Ref.DesignState := Ref.addElement elA0 Ref.initialState

/-- Reference design state after creating `"a"` then `"b"`. -/
def sAB : Ref.DesignState := Ref.addElement elB0 sA

/-- `sAB` after the inbound `delete(b)`. -/
def sDel : Ref.DesignState := Ref.deleteElement "b" sAB

/-- A single persisted design `"d1"` holding element `"a"`. -/
def dA : Src.Design :=
  { _id := "d1", name := "Demo", width := 1080, height := 1080,
    elements := [elA0], createdAt := "c0", updatedAt := "u0", thumbnailUrl := none }

/-- Shipped design-slice state holding only `dA`. -/
def sOne : Src.DesignState := { items := [dA], activeDesignId := none }

/-- The payload of the update carrying origin sequence number 2 (`x = 2`). -/
def seq2Payload : DesignElement := { elA0 with x := 2 }

/-- The payload of the update carrying origin sequence number 1 (`x = 1`). -/
def seq1Payload : DesignElement := { elA0 with x := 1 }

/-- Store state after out-of-order arrival: the sequence-2 update applied
first, then the sequence-1 update. -/
def c5State : Src.DesignState :=
  Src.updateElement "d1" seq1Payload "t2" (Src.updateElement "d1" seq2Payload "t1" sOne)

/-- The undo/redo scenario: create `"a"` at `x = 0`, snapshot, update
`"a"` to `x = 50`, snapshot, undo. -/
def c2AfterUndo : Store :=
  Store.dispatch .undo
    (Store.dispatch (.pushSnapshot ⟨"d1", [elA50], "t2"⟩)
      (Store.dispatch (.updateElement "a" patchX50)
        (Store.dispatch (.pushSnapshot ⟨"d1", [elA0], "t1"⟩)
          (Store.dispatch (.addElement elA0) Store.initial))))

/-- The scenario continued with a redo. -/
def c2AfterRedo : Store := Store.dispatch .redo c2AfterUndo

/-- A fixed history entry used to count snapshot calls. -/
def c4Entry : History.HistoryEntry :=
  { designId := "d1", snapshot := [], timestamp := "t0" }

/-- Two live collaborators with the connection flag set. -/
def presTwo : Presence.PresenceState :=
  { collaborators :=
      [("u1", { id := "u1", name := "Ada", color := "#ff0000", cursor := none,
                lastActiveAt := "t1" }),
       ("u2", { id := "u2", name := "Grace", color := "#00ff00", cursor := some (3, 4),
                lastActiveAt := "t2" })]
    isConnected := true }

/-! ### Lemmas about the JS-object operations -/

theorem recordGet_cons {α : Type} (p : String × α) (ps : List (String × α)) (j : String) :
    recordGet (p :: ps) j = if p.1 = j then some p.2 else recordGet ps j := by
  by_cases h : p.1 = j <;> simp [recordGet, List.find?_cons, h]

theorem recordDelete_cons {α : Type} (p : String × α) (ps : List (String × α)) (k : String) :
    recordDelete (p :: ps) k =
      if p.1 = k then recordDelete ps k else p :: recordDelete ps k := by
  by_cases h : p.1 = k <;> simp [recordDelete, List.filter_cons, h]

theorem recordGet_eq_none_iff {α : Type} (m : List (String × α)) (k : String) :
    recordGet m k = none ↔ (m.any (fun p => p.1 = k)) = false := by
  induction m with
  | nil => simp [recordGet]
  | cons p ps ih =>
    by_cases h : p.1 = k
    · simp [recordGet_cons, h]
    · simp only [recordGet_cons, h, if_false, List.any_cons]
      simpa [h] using ih

theorem not_mem_recordKeys_of_get_none {α : Type} {m : List (String × α)} {k : String}
    (h : recordGet m k = none) : k ∉ recordKeys m := by
  intro hmem
  rw [recordGet_eq_none_iff] at h
  rw [List.any_eq_false] at h
  rcases List.mem_map.mp hmem with ⟨p, hp, hpk⟩
  exact h p hp (by simpa using hpk)

theorem recordSet_of_get_none {α : Type} {m : List (String × α)} {k : String}
    (h : recordGet m k = none) (v : α) : recordSet m k v = m ++ [(k, v)] := by
  rw [recordGet_eq_none_iff] at h
  simp [recordSet, h]

theorem recordKeys_append {α : Type} (m n : List (String × α)) :
    recordKeys (m ++ n) = recordKeys m ++ recordKeys n := by
  simp [recordKeys]

theorem any_eq_true_of_get_some {α : Type} {m : List (String × α)} {k : String} {w : α}
    (h : recordGet m k = some w) : (m.any (fun p => p.1 = k)) = true := by
  by_contra hc
  rw [Bool.not_eq_true] at hc
  rw [← recordGet_eq_none_iff] at hc
  rw [hc] at h
  cases h

theorem recordKeys_map_replace {α : Type} (m : List (String × α)) (k : String) (v : α) :
    recordKeys (m.map (fun p => if p.1 = k then (k, v) else p)) = recordKeys m := by
  induction m with
  | nil => rfl
  | cons p ps ih =>
    by_cases hp : p.1 = k
    · simp only [recordKeys, List.map_cons] at ih ⊢
      simp [hp, ih]
    · simp only [recordKeys, List.map_cons] at ih ⊢
      simp [hp, ih]

theorem recordKeys_recordSet_of_get_some {α : Type} {m : List (String × α)} {k : String}
    {w : α} (h : recordGet m k = some w) (v : α) :
    recordKeys (recordSet m k v) = recordKeys m := by
  simp only [recordSet, any_eq_true_of_get_some h, if_true]
  exact recordKeys_map_replace m k v

theorem recordKeys_recordDelete {α : Type} (m : List (String × α)) (k : String) :
    recordKeys (recordDelete m k) = (recordKeys m).filter (fun id => id ≠ k) := by
  induction m with
  | nil => rfl
  | cons p ps ih =>
    by_cases hp : p.1 = k
    · simp only [recordDelete_cons, hp, if_true]
      simp only [recordKeys, List.map_cons, List.filter_cons]
      simpa [hp, recordKeys] using ih
    · simp only [recordDelete_cons, hp, if_false]
      simp only [recordKeys, List.map_cons, List.filter_cons]
      simpa [hp, recordKeys] using ih

theorem recordGet_recordDelete_self {α : Type} (m : List (String × α)) (k : String) :
    recordGet (recordDelete m k) k = none := by
  induction m with
  | nil => rfl
  | cons p ps ih =>
    by_cases hp : p.1 = k
    · simpa [recordDelete_cons, hp] using ih
    · simpa [recordDelete_cons, recordGet_cons, hp] using ih

theorem recordGet_recordDelete_ne {α : Type} (m : List (String × α)) {j k : String}
    (h : j ≠ k) : recordGet (recordDelete m k) j = recordGet m j := by
  induction m with
  | nil => rfl
  | cons p ps ih =>
    by_cases hpk : p.1 = k
    · have hpj : p.1 ≠ j := by rw [hpk]; exact fun he => h he.symm
      simp only [recordDelete_cons, hpk, if_true]
      rw [recordGet_cons, if_neg hpj]
      exact ih
    · simp only [recordDelete_cons, hpk, if_false]
      by_cases hpj : p.1 = j
      · simp [recordGet_cons, hpj]
      · rw [recordGet_cons, if_neg hpj, recordGet_cons, if_neg hpj]
        exact ih

/-! ### Lemmas about the shipped upsert -/

theorem find?_upsertElement_self (e : DesignElement) (els : List DesignElement) :
    (Src.upsertElement e els).find? (fun el => el.id = e.id) = some e := by
  induction els with
  | nil => simp [Src.upsertElement, List.find?_cons]
  | cons el els ih =>
    by_cases h : el.id = e.id
    · simp [Src.upsertElement, h, List.find?_cons]
    · simp only [Src.upsertElement, if_neg h]
      simpa [List.find?_cons, h] using ih

/-! ### Claim theorems -/

/-- Claim C1, counterexample: the claim quantifies over every sequence of
create/update/delete/reorder mutations, but a second `create` of the same
id duplicates that id in the layer order, so the element↔order invariant
fails after that call even though it held after the first. -/
theorem duplicate_create_breaks_invariant :
    Ref.elementOrderInv (Ref.applyMutation (.create elA0) Ref.initialState) ∧
    ¬ Ref.elementOrderInv
        (Ref.applyMutation (.create elA0)
          (Ref.applyMutation (.create elA0) Ref.initialState)) := by
  decide

/-- Claim C1 (amended): update and delete always preserve the
element↔order invariant; create preserves it when the created id is not
already a key of the element map, and reorder preserves it when the new
order is a permutation of the current layer order. -/
theorem mutation_preserves_elementOrderInv (s : Ref.DesignState) (m : Ref.Mutation)
    (hinv : Ref.elementOrderInv s) (hok : Ref.mutationOk s m) :
    Ref.elementOrderInv (Ref.applyMutation m s) := by
  obtain ⟨hord, hkeys, hsub1, hsub2⟩ := hinv
  cases m with
  | create el =>
    have hget : recordGet s.elementsById el.id = none := hok
    have hset := recordSet_of_get_none hget el
    have hnotk : el.id ∉ recordKeys s.elementsById := not_mem_recordKeys_of_get_none hget
    have hnoto : el.id ∉ s.layerOrder := fun hmem => hnotk (hsub1 _ hmem)
    simp only [Ref.applyMutation, Ref.addElement, Ref.elementOrderInv, hset,
      recordKeys_append]
    refine ⟨?_, ?_, ?_, ?_⟩
    · simp [List.nodup_append, hord, hnoto]
    · rw [List.nodup_append]
      refine ⟨hkeys, by simp [recordKeys], ?_⟩
      intro a ha hb
      simp only [recordKeys, List.map_cons, List.map_nil, List.mem_singleton] at hb
      subst hb
      exact hnotk ha
    · intro i hi
      rcases List.mem_append.mp hi with h1 | h1
      · exact List.mem_append.mpr (Or.inl (hsub1 _ h1))
      · simp only [List.mem_singleton] at h1
        subst h1
        exact List.mem_append.mpr (Or.inr (by simp [recordKeys]))
    · intro i hi
      rcases List.mem_append.mp hi with h1 | h1
      · exact List.mem_append.mpr (Or.inl (hsub2 _ h1))
      · simp only [recordKeys, List.map_cons, List.map_nil, List.mem_singleton] at h1
        subst h1
        exact List.mem_append.mpr (Or.inr (by simp))
  | update id patch =>
    simp only [Ref.applyMutation, Ref.updateElement]
    cases hget : recordGet s.elementsById id with
    | none => exact ⟨hord, hkeys, hsub1, hsub2⟩
    | some existing =>
      have hk := recordKeys_recordSet_of_get_some hget (applyPatch patch existing)
      refine ⟨hord, ?_, ?_, ?_⟩
      · simpa [Ref.elementOrderInv, hk] using hkeys
      · intro i hi
        simpa [hk] using hsub1 _ hi
      · intro i hi
        rw [hk] at hi
        exact hsub2 _ hi
  | delete id =>
    have hkd := recordKeys_recordDelete s.elementsById id
    simp only [Ref.applyMutation, Ref.deleteElement, Ref.elementOrderInv, hkd]
    refine ⟨hord.filter _, hkeys.filter _, ?_, ?_⟩
    · intro i hi
      simp only [List.mem_filter, decide_eq_true_eq] at hi ⊢
      exact ⟨hsub1 _ hi.1, hi.2⟩
    · intro i hi
      simp only [List.mem_filter, decide_eq_true_eq] at hi ⊢
      exact ⟨hsub2 _ hi.1, hi.2⟩
  | reorder newOrder =>
    have hperm : newOrder.Perm s.layerOrder := hok
    simp only [Ref.applyMutation, Ref.reorderLayers, Ref.elementOrderInv]
    refine ⟨hperm.symm.nodup hord, hkeys, ?_, ?_⟩
    · intro i hi
      exact hsub1 _ (hperm.mem_iff.mp hi)
    · intro i hi
      exact hperm.mem_iff.mpr (hsub2 _ hi)

/-- Claim C1 witness: the preservation theorem applied to the one-element
state and a concrete permutation reorder. -/
theorem mutation_preserves_elementOrderInv_witness :
    Ref.elementOrderInv sA ∧ Ref.mutationOk sA (.reorder ["a"]) ∧
    Ref.elementOrderInv (Ref.applyMutation (.reorder ["a"]) sA) :=
  ⟨by decide, by decide,
    mutation_preserves_elementOrderInv sA (.reorder ["a"]) (by decide) (by decide)⟩

/-- Claim C2: after create → snapshot → update to `x = 50` → snapshot →
undo, the design store still holds `"a"` at `x = 50` (not `x = 0`): the
shipped `undo` and `redo` only move entries between the `past` and
`future` stacks and never restore a snapshot into the design slice. -/
theorem undo_leaves_design_state_unrestored :
    recordGet c2AfterUndo.design.elementsById "a" = some elA50 ∧
    elA0.x = 0 ∧ elA50.x = 50 ∧
    recordGet c2AfterRedo.design.elementsById "a" = some elA50 ∧
    c2AfterUndo.history.past = [⟨"d1", [elA0], "t1"⟩] ∧
    c2AfterUndo.history.future = [⟨"d1", [elA50], "t2"⟩] := by
  decide

/-- Claim C3, counterexample: `reorderLayers` with `[]`, which is not a
permutation of the current order `["a"]`, is applied rather than rejected:
the state changes and the layer order becomes `[]`. -/
theorem nonperm_reorder_applied_not_rejected :
    ¬ (List.Perm ([] : List String) sA.layerOrder) ∧
    Ref.reorderLayers [] sA ≠ sA ∧
    (Ref.reorderLayers [] sA).layerOrder = [] ∧
    sA.layerOrder = ["a"] := by
  decide

/-- Claim C3 (amended): `reorderLayers` performs no validation at all — it
unconditionally replaces the layer order with the given `newOrder`, leaves
the element map untouched, and sets the dirty flag. -/
theorem reorderLayers_unvalidated (s : Ref.DesignState) (newOrder : List String) :
    (Ref.reorderLayers newOrder s).layerOrder = newOrder ∧
    (Ref.reorderLayers newOrder s).elementsById = s.elementsById ∧
    (Ref.reorderLayers newOrder s).dirty = true :=
  ⟨rfl, rfl, rfl⟩

/-- Claim C4: the shipped `pushSnapshot` never bounds the `past` stack —
51 consecutive snapshots from the empty history leave 51 entries, beyond
the documented bound of 50. -/
theorem history_past_unbounded :
    (History.pushN c4Entry 51 History.initialState).past.length = 51 ∧
    ¬ ((History.pushN c4Entry 51 History.initialState).past.length ≤ 50) := by
  decide

/-- Claim C5, counterexample: with the sequence-2 payload applied first
and the sequence-1 payload applied second (out-of-order arrival), the
store ends up holding the sequence-1 payload, not the sequence-2 one —
the reducer keeps whatever was applied last and consults no sequence
numbers. -/
theorem out_of_order_updates_seq2_loses :
    (c5State.items.map (fun d => d.elements)) = [[seq1Payload]] ∧
    seq1Payload ≠ seq2Payload := by
  decide

/-- Claim C5 (amended): inbound updates to the same element resolve by
application order alone — after applying update `e1` then update `e2` to
a single-design store, the payload present is `e2`, the last one applied. -/
theorem same_element_last_update_wins (d : Src.Design) (e1 e2 : DesignElement)
    (t1 t2 : String) (h : e1.id = e2.id) :
    ∃ dNew : Src.Design,
      (Src.updateElement d._id e2 t2
          (Src.updateElement d._id e1 t1 { items := [d], activeDesignId := none })).items
        = [dNew] ∧
      dNew.elements.find? (fun el => el.id = e1.id) = some e2 := by
  refine ⟨{ d with
    elements := Src.upsertElement e2 (Src.upsertElement e1 d.elements)
    updatedAt := t2 }, ?_, ?_⟩
  · simp [Src.updateElement, Src.updateItems]
  · rw [h]
    exact find?_upsertElement_self e2 _

/-- Claim C5 witness: two concrete same-id payloads applied out of order. -/
theorem same_element_last_update_wins_witness :
    seq2Payload.id = seq1Payload.id ∧
    ∃ dNew : Src.Design,
      (Src.updateElement dA._id seq1Payload "t2"
          (Src.updateElement dA._id seq2Payload "t1"
            { items := [dA], activeDesignId := none })).items
        = [dNew] ∧
      dNew.elements.find? (fun el => el.id = seq2Payload.id) = some seq1Payload :=
  ⟨by decide,
    same_element_last_update_wins dA seq2Payload seq1Payload "t1" "t2" (by decide)⟩

/-- Claim C6, counterexample: the shipped `updateElement` does not ignore
an unknown element id — it appends the element to the design (upsert), so
the state changes. -/
theorem unknown_element_update_upserts :
    Src.updateElement "d1" elB10 "t9" sOne ≠ sOne ∧
    (Src.updateElement "d1" elB10 "t9" sOne).items =
      [{ dA with elements := [elA0, elB10], updatedAt := "t9" }] := by
  decide

/-- Claim C6 (amended): in the reference design slice, the concrete
scenario holds — after `delete(b)` the stale `update(b, {x:10})` is a
strict no-op (the state is exactly the post-delete state, and `"b"` is
gone) and the layer order ends as `["a"]`. -/
theorem delete_then_stale_update_noop :
    Ref.updateElement "b" patchX10 sDel = sDel ∧
    sDel.layerOrder = ["a"] ∧
    recordGet sDel.elementsById "b" = none := by
  decide

/-- Claim C7: dispatching any inbound remote element event (create,
update, delete, layer-reorder) leaves the history slice completely
unchanged — only the design slice reacts to these actions, and no
snapshot action is emitted. -/
theorem remote_mutations_leave_history_unchanged (e : RemoteEvent) (s : Store) :
    (applyRemote e s).history = s.history := by
  cases e <;> rfl

/-- Claim C8: any `pushSnapshot` — in particular one issued after one or
more undos — resets the `future` stack to the empty list. -/
theorem snapshot_after_undo_clears_future (s : History.HistoryState)
    (entry : History.HistoryEntry) (n : Nat) :
    (History.pushSnapshot entry (History.undoN (n + 1) s)).future = [] := rfl

/-- Claim C9: removing a collaborator deletes exactly that id from the
collaborator map; every other collaborator's entry and the connection
flag are unchanged. -/
theorem removeCollaborator_removes_only_target (s : Presence.PresenceState)
    (id j : String) (h : j ≠ id) :
    recordGet (Presence.removeCollaborator id s).collaborators id = none ∧
    recordGet (Presence.removeCollaborator id s).collaborators j =
      recordGet s.collaborators j ∧
    (Presence.removeCollaborator id s).isConnected = s.isConnected :=
  ⟨recordGet_recordDelete_self _ _, recordGet_recordDelete_ne _ h, rfl⟩

/-- Claim C9 witness: removing `"u2"` from a two-collaborator state. -/
theorem removeCollaborator_witness :
    ("u1" : String) ≠ "u2" ∧
    recordGet (Presence.removeCollaborator "u2" presTwo).collaborators "u2" = none ∧
    recordGet (Presence.removeCollaborator "u2" presTwo).collaborators "u1" =
      recordGet presTwo.collaborators "u1" ∧
    (Presence.removeCollaborator "u2" presTwo).isConnected = presTwo.isConnected :=
  ⟨by decide, removeCollaborator_removes_only_target presTwo "u2" "u1" (by decide)⟩

/-- Claim C10: an `updateElement` whose design id matches no design in the
store leaves the whole state unchanged. -/
theorem updateElement_unknown_design_noop (s : Src.DesignState) (designId : String)
    (element : DesignElement) (now : String)
    (h : ∀ d ∈ s.items, d._id ≠ designId) :
    Src.updateElement designId element now s = s := by
  unfold Src.updateElement
  rw [if_neg]
  intro hc
  rw [List.any_eq_true] at hc
  rcases hc with ⟨d, hd, he⟩
  exact h d hd (by simpa using he)

/-- Claim C10 witness: updating design id `"nope"` in a store holding only
design `"d1"`. -/
theorem updateElement_unknown_design_witness :
    (∀ d ∈ sOne.items, d._id ≠ "nope") ∧
    Src.updateElement "nope" elB10 "t9" sOne = sOne :=
  ⟨by decide, updateElement_unknown_design_noop sOne "nope" elB10 "t9" (by decide)⟩

end DesignCollab
